import Mathlib

/-!
Verification of the VPN datapath of `geph4-exit` (`src/vpn.rs`):
the IPv4 address assigner with lease release, the per-session packet
pump (`handle_vpn_session`) with its egress policy gate, and the TUN
demultiplexer (`INCOMING_PKT_HANDLER`).

Machine bytes are modelled as `Nat`, reduced `% 256` at each read;
IPv4 addresses are their 32-bit big-endian value as a `Nat`.
-/

namespace Geph4Exit

/-! ## Bytes and IPv4 packet view (pnet `Ipv4Packet`, `TcpPacket`, `UdpPacket`) -/

/-- Read byte `i` of a buffer; bytes are u8, so reads are reduced mod 256. -/
def byteAt (bts : List Nat) (i : Nat) : Nat :=
  bts.getD i 0 % 256

/-- Big-endian 32-bit value from four consecutive bytes starting at `i`. -/
def be32At (bts : List Nat) (i : Nat) : Nat :=
  byteAt bts i * 16777216 + byteAt bts (i + 1) * 65536 +
    byteAt bts (i + 2) * 256 + byteAt bts (i + 3)

/-- Big-endian 16-bit value from two consecutive bytes starting at `i`. -/
def be16At (bts : List Nat) (i : Nat) : Nat :=
  byteAt bts i * 256 + byteAt bts (i + 1)

/-- pnet `Ipv4Packet::get_header_length`: low nibble of byte 0. -/
def ipv4HeaderLength (bts : List Nat) : Nat := byteAt bts 0 % 16

/-- pnet `Ipv4Packet::get_total_length`: bytes 2..3, big-endian. -/
def ipv4TotalLength (bts : List Nat) : Nat := be16At bts 2

/-- pnet `ipv4_options_length`: `(header_length * 4).saturating_sub(20)`
(Nat subtraction saturates). -/
def ipv4OptionsLength (bts : List Nat) : Nat := ipv4HeaderLength bts * 4 - 20

/-- pnet `ipv4_payload_length`: `total_length.saturating_sub(header_length * 4)`. -/
def ipv4PayloadLength (bts : List Nat) : Nat :=
  ipv4TotalLength bts - ipv4HeaderLength bts * 4

/-- pnet `Ipv4Packet::payload()`: the slice starting after the fixed header and
options, of length `ipv4_payload_length`, clamped to the buffer. -/
def ipv4PayloadBytes (bts : List Nat) : List Nat :=
  let start := 20 + ipv4OptionsLength bts
  if start > bts.length then []
  else (bts.drop start).take (ipv4PayloadLength bts)

/-- Parsed view of an IPv4 packet, with the fields `handle_vpn_session` and the
demux read: source (bytes 12..15), destination (bytes 16..19), next-level
protocol (byte 9), and the pnet payload slice. -/
structure Ipv4View where
  source : Nat
  destination : Nat
  protocol : Nat
  payload : List Nat
  deriving Repr, DecidableEq

/-- pnet `Ipv4Packet::new`: succeeds iff the buffer has at least the 20-byte
minimum IPv4 header. -/
def ipv4Parse (bts : List Nat) : Option Ipv4View :=
  if bts.length ≥ 20 then
    some { source := be32At bts 12
           destination := be32At bts 16
           protocol := byteAt bts 9
           payload := ipv4PayloadBytes bts }
  else none

/-- IANA protocol number of TCP. -/
def protoTcp : Nat := 6

/-- IANA protocol number of UDP. -/
def protoUdp : Nat := 17

/-- pnet `TcpPacket::new(buf).map(|v| v.get_destination())`: needs the 20-byte
minimum TCP header; destination port is bytes 2..3. -/
def tcpDestPort (buf : List Nat) : Option Nat :=
  if buf.length ≥ 20 then some (be16At buf 2) else none

/-- pnet `UdpPacket::new(buf).map(|v| v.get_destination())`: needs the 8-byte
UDP header; destination port is bytes 2..3. -/
def udpDestPort (buf : List Nat) : Option Nat :=
  if buf.length ≥ 8 then some (be16At buf 2) else none

/-- The `port` computation of `handle_vpn_session` (vpn.rs lines 189-199):
destination port for TCP or UDP, `None` for other protocols or short payloads. -/
def destPort (pkt : Ipv4View) : Option Nat :=
  if pkt.protocol = protoTcp then tcpDestPort pkt.payload
  else if pkt.protocol = protoUdp then udpDestPort pkt.payload
  else none

/-! ## IPv4 address classification (`std::net::Ipv4Addr` predicates) -/

/-- First octet of a 32-bit IPv4 value. -/
def octet0 (a : Nat) : Nat := a / 16777216 % 256

/-- Second octet of a 32-bit IPv4 value. -/
def octet1 (a : Nat) : Nat := a / 65536 % 256

/-- Std `Ipv4Addr::is_loopback`: 127.0.0.0/8. -/
def isLoopback (a : Nat) : Bool := octet0 a == 127

/-- Std `Ipv4Addr::is_private`: 10.0.0.0/8, 172.16.0.0/12, 192.168.0.0/16. -/
def isPrivate (a : Nat) : Bool :=
  octet0 a == 10 ||
  (octet0 a == 172 && 16 ≤ octet1 a && octet1 a ≤ 31) ||
  (octet0 a == 192 && octet1 a == 168)

/-- Std `Ipv4Addr::is_unspecified`: 0.0.0.0. -/
def isUnspecified (a : Nat) : Bool := a == 0

/-- Std `Ipv4Addr::is_broadcast`: 255.255.255.255. -/
def isBroadcast (a : Nat) : Bool := a == 4294967295

/-! ## The egress policy of the session pump -/

/-- Externally supplied policy tables (`crate::lists::BLACK_PORTS`,
`crate::lists::WHITE_PORTS`, `ctx.config.port_whitelist()`). -/
structure Cfg where
  blackPorts : List Nat
  whitePorts : List Nat
  portWhitelist : Bool
  deriving Repr, DecidableEq

/-- The source/destination drop condition of the egress gate
(vpn.rs lines 180-184): source differs from the assigned address, or the
destination is loopback, private, unspecified, or broadcast. -/
def gateDrops (assigned : Nat) (pkt : Ipv4View) : Bool :=
  pkt.source != assigned || isLoopback pkt.destination ||
    isPrivate pkt.destination || isUnspecified pkt.destination ||
    isBroadcast pkt.destination

/-- The port-based filter stage (vpn.rs lines 189-215): QUIC suppression
(UDP to port 443), the blacklist, and the optional whitelist; `some bts`
is the TUN write, `none` is a silent drop. -/
def portFilter (cfg : Cfg) (pkt : Ipv4View) (bts : List Nat) : Option (List Nat) :=
  match destPort pkt with
  | some port =>
      if pkt.protocol = protoUdp ∧ port = 443 then none
      else if port ∈ cfg.blackPorts then none
      else if cfg.portWhitelist ∧ port ∉ cfg.whitePorts then none
      else some bts
  | none => some bts

/-- The `VpnMessage::Payload` arm of `handle_vpn_session` (vpn.rs lines
169-216): parse as IPv4 (unparseable → skip the write), apply the
source/destination gate, then the port filter. `some bts` means
`RAW_TUN.write_raw(&bts)` is performed. -/
def handlePayload (cfg : Cfg) (assigned : Nat) (bts : List Nat) : Option (List Nat) :=
  match ipv4Parse bts with
  | none => none
  | some pkt =>
      if gateDrops assigned pkt then none
      else portFilter cfg pkt bts

/-! ## The session pump's ingress loop over wire messages -/

/-- Wire messages `geph4_protocol::VpnMessage`, the wire form on the multiplexed transport.
`other` stands for any further tag, fatal after handshake. -/
inductive VpnMessage where
  | clientHello
  | serverHello (clientIp : Nat) (gateway : Nat)
  | payload (bts : List Nat)
  | other
  deriving Repr, DecidableEq

/-- Observable effects of the session pump: an unreliable send on the
multiplexed transport, or a raw write to the TUN device. -/
inductive SessOut where
  | sendMsg (m : VpnMessage)
  | tunWrite (bts : List Nat)
  deriving Repr, DecidableEq

/-- The gateway address sent in `ServerHello`: `"100.64.0.1"`. -/
def gatewayAddr : Nat := 100 * 16777216 + 64 * 65536 + 1

/-- One iteration of the ingress loop of `handle_vpn_session` (vpn.rs lines
157-219) on an already-deserialized message: the produced effects, and
whether the loop continues (`false` models `bail!("message in invalid
context")`). -/
def vpnStep (cfg : Cfg) (assigned : Nat) (msg : VpnMessage) :
    List SessOut × Bool :=
  match msg with
  | .clientHello =>
      ([.sendMsg (.serverHello assigned gatewayAddr)], true)
  | .payload bts =>
      ((match handlePayload cfg assigned bts with
        | some b => [.tunWrite b]
        | none => []), true)
  | .serverHello _ _ => ([], false)
  | .other => ([], false)

/-- The ingress loop over a sequence of received messages, collecting the
effect trace in order; a fatal message ends the session. -/
def vpnLoop (cfg : Cfg) (assigned : Nat) : List VpnMessage → List SessOut
  | [] => []
  | m :: rest =>
      let (outs, cont) := vpnStep cfg assigned m
      outs ++ (if cont then vpnLoop cfg assigned rest else [])

/-! ## The IPv4 address assigner (`IpAddrAssigner`, `AssignedIpv4Addr`) -/

/-- Models `rand::thread_rng().gen_range(lo, hi)`: a draw in the half-open range
`[lo, hi)`, the randomness abstracted into a seed (requires `lo < hi`,
under which `lo + seed % (hi - lo) < hi`). -/
def genRange (lo hi seed : Nat) : Nat := lo + seed % (hi - lo)

/-- Models `IpAddrAssigner::assign` (vpn.rs lines 324-337): repeatedly draw a random
candidate in `[cidr.first() + 16, cidr.last() - 16)`; under the table lock,
retry if the candidate is taken, else insert it and return it. The unbounded
random loop is modelled over a finite seed list; `none` means every modelled
draw collided (the code would keep drawing). -/
def assign (first last : Nat) (seeds : List Nat) (table : Finset Nat) :
    Option (Nat × Finset Nat) :=
  match seeds with
  | [] => none
  | s :: rest =>
      let candidate := genRange (first + 16) (last - 16) s
      if candidate ∈ table then assign first last rest table
      else some (candidate, insert candidate table)

/-- Runs `N` successive `assign` calls with no intervening releases: the list of
assigned addresses (in call order) and the final table. -/
def assignN (first last : Nat) :
    List (List Nat) → Finset Nat → Option (List Nat × Finset Nat)
  | [], table => some ([], table)
  | seeds :: rest, table =>
      match assign first last seeds table with
      | none => none
      | some (a, table') =>
          match assignN first last rest table' with
          | none => none
          | some (as_, table'') => some (a :: as_, table'')

/-- Models `AssignedIpv4AddrInner::drop` (vpn.rs lines 391-398): remove the address
from the pool's set; `HashSet::remove` returning `false` (address absent) is
the `"double free"` panic, modelled as `none`. -/
def releaseAddr (table : Finset Nat) (a : Nat) : Option (Finset Nat) :=
  if a ∈ table then some (table.erase a) else none

/-- Pool state together with the ghost set of addresses referenced by live
`AssignedIpv4Addr` leases. -/
structure PoolState where
  table : Finset Nat
  leases : Finset Nat
  deriving DecidableEq

/-- An operation on the pool: an `assign()` call (with its random draws), or
the drop of the last handle of a live lease. -/
inductive PoolOp where
  | assign (seeds : List Nat)
  | release (a : Nat)
  deriving Repr, DecidableEq

/-- One pool operation: `assign` inserts the fresh address into the table and
creates a live lease for it; `release a` (only meaningful for a live lease)
drops the lease and removes the address from the table, `none` being the
double-free panic. -/
def poolStep (first last : Nat) (s : PoolState) : PoolOp → Option PoolState
  | .assign seeds =>
      (assign first last seeds s.table).map
        (fun p => ⟨p.2, insert p.1 s.leases⟩)
  | .release a =>
      if a ∈ s.leases then
        (releaseAddr s.table a).map (fun t => ⟨t, s.leases.erase a⟩)
      else none

/-- A sequence of pool operations. -/
def poolRun (first last : Nat) (s : PoolState) : List PoolOp → Option PoolState
  | [] => some s
  | op :: rest =>
      match poolStep first last s op with
      | none => none
      | some s' => poolRun first last s' rest

/-! ## The rate limiter interface and the ingress channel capacity -/

/-- Modelled from the spec: the `RateLimiter` of `crate::ratelimit` (not under
src/) is used by the session pump only through `is_unlimited()` and
`limit()`; «with rate limiter `limit=L`, the ingress channel has capacity
`L/4`; with unlimited, 65536». -/
inductive RateLimiter where
  | unlimited
  | limited (l : Nat)
  deriving Repr, DecidableEq

/-- Mirrors `RateLimiter::is_unlimited`. -/
def RateLimiter.isUnlimited : RateLimiter → Bool
  | .unlimited => true
  | .limited _ => false

/-- Mirrors `RateLimiter::limit`; the session pump only calls it when the limiter is
not unlimited. -/
def RateLimiter.limit : RateLimiter → Nat
  | .unlimited => 0
  | .limited l => l

/-- The bound of the session's ingress channel (vpn.rs lines 121-125):
65536 slots if the rate limiter is unlimited, else `limit() / 4`. -/
def ingressCapacity (rl : RateLimiter) : Nat :=
  if rl.isUnlimited then 65536 else rl.limit / 4

/-! ## The TUN demultiplexer (`INCOMING_PKT_HANDLER`) -/

/-- A bounded ingress channel (`smol::channel::bounded`): capacity, queued
buffers in enqueue order, and whether the receiver side is closed. -/
structure Channel where
  cap : Nat
  queue : List (List Nat)
  closed : Bool
  deriving Repr, DecidableEq

/-- Models `Sender::try_send`: non-blocking; fails (`none`) when the channel is
closed or full, else enqueues at the back. -/
def trySend (ch : Channel) (b : List Nat) : Option Channel :=
  if ch.closed ∨ ch.cap ≤ ch.queue.length then none
  else some { ch with queue := ch.queue ++ [b] }

/-- The route table `INCOMING_MAP`, as an association list from leased IPv4
to the session's ingress channel. -/
abbrev RouteTable := List (Nat × Channel)

/-- Outcome of one demux iteration for one frame. -/
inductive DemuxResult where
  | delivered (dst : Nat)
  | droppedParse
  | droppedNoRoute
  | droppedChannel
  deriving Repr, DecidableEq

/-- Replace the channel stored under address `d`. -/
def updateRoute (routes : RouteTable) (d : Nat) (ch : Channel) : RouteTable :=
  routes.map (fun p => if p.1 = d then (d, ch) else p)

/-- One iteration of the TUN reader loop (vpn.rs lines 275-284): parse the
frame as IPv4 (failure → silent drop), look up the destination in
`INCOMING_MAP` (missing → drop), `try_send` into that channel (full or
closed → drop with a trace log). The loop always continues. -/
def demuxStep (routes : RouteTable) (frame : List Nat) :
    DemuxResult × RouteTable :=
  match ipv4Parse frame with
  | none => (.droppedParse, routes)
  | some pkt =>
      match routes.lookup pkt.destination with
      | none => (.droppedNoRoute, routes)
      | some ch =>
          match trySend ch frame with
          | none => (.droppedChannel, routes)
          | some ch' =>
              (.delivered pkt.destination, updateRoute routes pkt.destination ch')

/-- The TUN reader loop over a sequence of frames read from the device,
collecting the per-frame outcomes. -/
def demuxRun (routes : RouteTable) : List (List Nat) → List DemuxResult × RouteTable
  | [] => ([], routes)
  | frame :: rest =>
      let (res, routes') := demuxStep routes frame
      let (results, routes'') := demuxRun routes' rest
      (res :: results, routes'')

/-- Every buffer queued in the channel registered under `a` parses as IPv4
with destination `a`. -/
def goodChan (a : Nat) (ch : Channel) : Bool :=
  ch.queue.all fun b =>
    match ipv4Parse b with
    | some pkt => pkt.destination == a
    | none => false

/-- The route-table invariant: each registered channel only holds frames
addressed to its key. -/
def routesOk (routes : RouteTable) : Bool :=
  routes.all fun p => goodChan p.1 p.2

/-- One iteration of the egress (`_down_task`) loop of `handle_vpn_session`
(vpn.rs lines 132-149) on a buffer received from the ingress channel:
`Ipv4Packet::new(&bts).expect(..)` (panic modelled as `none`), the
`assert_eq!(pkt.get_destination(), addr)` (failure modelled as `none`),
then the `VpnMessage::Payload` send. -/
def downStep (addr : Nat) (bts : List Nat) : Option SessOut :=
  match ipv4Parse bts with
  | none => none
  | some pkt =>
      if pkt.destination = addr then some (.sendMsg (.payload bts)) else none

/-! ## The session-pump startup sequence -/

/-- The statements executed by `handle_vpn_session` (vpn.rs lines 101-154)
before the first message is received, in program order. -/
inductive StartupEvent where
  | forcePktHandler    -- line 101: `Lazy::force(&INCOMING_PKT_HANDLER)`
  | createLazyLease    -- line 106: `Lazy::new(|| IpAddrAssigner::global().assign())`
  | forceLease         -- line 107: `assigned_ip.addr()` derefs the Lazy, allocating
  | registerCleanup    -- line 108: `scopeguard::defer!(INCOMING_MAP.invalidate(..))`
  | computeCapacity    -- lines 121-125: `smol::channel::bounded(..)`
  | routeInsert        -- line 126: `INCOMING_MAP.insert(addr, send_down)`
  | spawnDownTask      -- line 131: `smolscale::spawn(..)`
  | firstRecv          -- line 154: first `mux.recv_urel().await`
  deriving Repr, DecidableEq

/-- The startup trace of `handle_vpn_session`, in source order. -/
def sessionStartup : List StartupEvent :=
  [.forcePktHandler, .createLazyLease, .forceLease, .registerCleanup,
   .computeCapacity, .routeInsert, .spawnDownTask, .firstRecv]

/-! ## Concrete demonstration values -/

/-- The assigned address 100.64.7.7 of the spec's scenarios. -/
def assignedA : Nat := 100 * 16777216 + 64 * 65536 + 7 * 256 + 7

/-- Empty policy tables, whitelist disabled. -/
def cfgEmpty : Cfg := ⟨[], [], false⟩

/-- UDP packet, src 100.64.7.7, dst 8.8.8.8, destination port 53. -/
def pktUdp53 : List Nat :=
  [69, 0, 0, 28, 0, 0, 0, 0, 64, 17, 0, 0, 100, 64, 7, 7, 8, 8, 8, 8,
   0, 99, 0, 53, 0, 8, 0, 0]

/-- UDP packet, src 100.64.7.7, dst 8.8.8.8, destination port 443. -/
def pktUdp443 : List Nat :=
  [69, 0, 0, 28, 0, 0, 0, 0, 64, 17, 0, 0, 100, 64, 7, 7, 8, 8, 8, 8,
   0, 99, 1, 187, 0, 8, 0, 0]

/-- TCP packet, src 100.64.7.7, dst 8.8.8.8, destination port 443. -/
def pktTcp443 : List Nat :=
  [69, 0, 0, 40, 0, 0, 0, 0, 64, 6, 0, 0, 100, 64, 7, 7, 8, 8, 8, 8,
   0, 99, 1, 187, 0, 0, 0, 0, 0, 0, 0, 0, 5, 0, 0, 0, 0, 0, 0, 0]

/-- UDP packet with spoofed source 100.64.7.8, dst 8.8.8.8. -/
def pktSpoofed : List Nat :=
  [69, 0, 0, 28, 0, 0, 0, 0, 64, 17, 0, 0, 100, 64, 7, 8, 8, 8, 8, 8,
   0, 99, 0, 53, 0, 8, 0, 0]

/-- Return-path frame read from the TUN: dst 100.64.7.7. -/
def retFrame : List Nat :=
  [69, 0, 0, 28, 0, 0, 0, 0, 64, 17, 0, 0, 8, 8, 8, 8, 100, 64, 7, 7,
   0, 53, 0, 99, 0, 8, 0, 0]

/-- Parsed view of `pktUdp53`. -/
def viewUdp53 : Ipv4View := ⟨assignedA, 134744072, 17, [0, 99, 0, 53, 0, 8, 0, 0]⟩

/-- Parsed view of `pktUdp443`. -/
def viewUdp443 : Ipv4View := ⟨assignedA, 134744072, 17, [0, 99, 1, 187, 0, 8, 0, 0]⟩

/-- Parsed view of `pktTcp443`. -/
def viewTcp443 : Ipv4View :=
  ⟨assignedA, 134744072, 6,
   [0, 99, 1, 187, 0, 0, 0, 0, 0, 0, 0, 0, 5, 0, 0, 0, 0, 0, 0, 0]⟩

/-- Parsed view of `pktSpoofed`. -/
def viewSpoofed : Ipv4View := ⟨assignedA + 1, 134744072, 17, [0, 99, 0, 53, 0, 8, 0, 0]⟩

/-- Parsed view of `retFrame`. -/
def viewRet : Ipv4View := ⟨134744072, assignedA, 17, [0, 53, 0, 99, 0, 8, 0, 0]⟩

/-- A demo route table: the session at 100.64.7.7 with a roomy channel, and a
second session at address 999 whose channel is full (capacity 0). -/
def demoRoutes : RouteTable :=
  [(assignedA, ⟨4, [retFrame], false⟩), (999, ⟨0, [], false⟩)]

/-- A route table holding only the session at 100.64.7.7. -/
def smallRoutes : RouteTable := [(assignedA, ⟨4, [retFrame], false⟩)]

/-- TUN frame destined to address 999 (0.0.3.231), the full channel. -/
def frame999 : List Nat :=
  [69, 0, 0, 28, 0, 0, 0, 0, 64, 17, 0, 0, 8, 8, 8, 8, 0, 0, 3, 231,
   0, 53, 0, 99, 0, 8, 0, 0]

/-- Parsed view of `frame999`. -/
def viewFrame999 : Ipv4View := ⟨134744072, 999, 17, [0, 53, 0, 99, 0, 8, 0, 0]⟩

/-! ## Helper lemmas on the assigner -/

/-- A successful `assign` returns an address that was free and inserts
exactly it. -/
theorem assign_result {first last : Nat} {seeds : List Nat} {t : Finset Nat}
    {a : Nat} {t' : Finset Nat} (h : assign first last seeds t = some (a, t')) :
    a ∉ t ∧ t' = insert a t := by
  induction seeds with
  | nil => simp [assign] at h
  | cons s rest ih =>
      simp only [assign] at h
      split at h
      · exact ih h
      · rename_i hfree
        obtain ⟨rfl, rfl⟩ := Prod.mk.injEq .. ▸ Option.some.inj h
        exact ⟨hfree, rfl⟩

/-- A successful `assign` returns a candidate drawn by `genRange` from one of
the seeds. -/
theorem assign_from_seed {first last : Nat} {seeds : List Nat} {t : Finset Nat}
    {a : Nat} {t' : Finset Nat} (h : assign first last seeds t = some (a, t')) :
    ∃ s ∈ seeds, a = genRange (first + 16) (last - 16) s := by
  induction seeds with
  | nil => simp [assign] at h
  | cons s rest ih =>
      simp only [assign] at h
      split at h
      · obtain ⟨s', hs', ha⟩ := ih h
        exact ⟨s', List.mem_cons_of_mem _ hs', ha⟩
      · obtain ⟨rfl, rfl⟩ := Prod.mk.injEq .. ▸ Option.some.inj h
        exact ⟨s, List.mem_cons_self _ _, rfl⟩

/-- Specification of `assignN`: the returned addresses are distinct, all were
free initially, and the final table is exactly the old table plus them. -/
theorem assignN_spec {first last : Nat} :
    ∀ {css : List (List Nat)} {t : Finset Nat} {as_ : List Nat} {t' : Finset Nat},
      assignN first last css t = some (as_, t') →
      as_.Nodup ∧ (∀ x ∈ as_, x ∉ t) ∧ (∀ x, x ∈ t' ↔ x ∈ as_ ∨ x ∈ t) := by
  intro css
  induction css with
  | nil =>
      intro t as_ t' h
      obtain ⟨rfl, rfl⟩ := Prod.mk.injEq .. ▸ Option.some.inj (by simpa [assignN] using h)
      simp
  | cons seeds rest ih =>
      intro t as_ t' h
      simp only [assignN] at h
      split at h
      · exact absurd h (by simp)
      · rename_i a t1 h1
        split at h
        · exact absurd h (by simp)
        · rename_i as1 t2 h2
          obtain ⟨rfl, rfl⟩ := Prod.mk.injEq .. ▸ Option.some.inj h
          obtain ⟨hfree, rfl⟩ := assign_result h1
          obtain ⟨hnd, hfr, hmem⟩ := ih h2
          refine ⟨?_, ?_, ?_⟩
          · exact List.nodup_cons.2
              ⟨fun hc => hfr a hc (Finset.mem_insert_self a t), hnd⟩
          · intro x hx
            rcases List.mem_cons.1 hx with rfl | hx'
            · exact hfree
            · exact fun hxt => hfr x hx' (Finset.mem_insert_of_mem hxt)
          · intro x
            rw [hmem x]
            simp only [Finset.mem_insert, List.mem_cons]
            tauto

/-- A successful pool step preserves the table-equals-live-leases invariant. -/
theorem poolStep_inv {first last : Nat} {s s' : PoolState} {op : PoolOp}
    (h : poolStep first last s op = some s') (hinv : s.table = s.leases) :
    s'.table = s'.leases := by
  cases op with
  | assign seeds =>
      simp only [poolStep] at h
      cases h1 : assign first last seeds s.table with
      | none => rw [h1] at h; exact absurd h (by simp)
      | some p =>
          obtain ⟨a, t1⟩ := p
          rw [h1] at h
          obtain ⟨_, rfl⟩ := assign_result h1
          obtain rfl := Option.some.inj h
          simpa using congrArg (insert a) hinv
  | release a =>
      simp only [poolStep] at h
      split at h
      · rename_i hlive
        rw [releaseAddr, if_pos (hinv ▸ hlive)] at h
        obtain rfl := Option.some.inj h
        simpa using congrArg (fun t => Finset.erase t a) hinv
      · exact absurd h (by simp)

/-- Running a sequence of pool operations preserves the invariant. -/
theorem poolRun_inv {first last : Nat} :
    ∀ {ops : List PoolOp} {s s' : PoolState},
      poolRun first last s ops = some s' → s.table = s.leases →
      s'.table = s'.leases := by
  intro ops
  induction ops with
  | nil =>
      intro s s' h hinv
      obtain rfl := Option.some.inj (by simpa [poolRun] using h)
      exact hinv
  | cons op rest ih =>
      intro s s' h hinv
      simp only [poolRun] at h
      cases h1 : poolStep first last s op with
      | none => rw [h1] at h; exact absurd h (by simp)
      | some s1 =>
          rw [h1] at h
          exact ih h (poolStep_inv h1 hinv)

/-! ## Helper lemmas on the demux -/

/-- A successful lookup names an entry of the table. -/
theorem lookup_mem : ∀ {routes : RouteTable} {a : Nat} {ch : Channel},
    routes.lookup a = some ch → (a, ch) ∈ routes := by
  intro routes
  induction routes with
  | nil => intro a ch h; simp [List.lookup] at h
  | cons p rest ih =>
      intro a ch h
      obtain ⟨k, v⟩ := p
      simp only [List.lookup] at h
      split at h
      · rename_i hk
        obtain rfl := Option.some.inj h
        exact List.mem_cons.2 (Or.inl (by rw [eq_of_beq hk]))
      · exact List.mem_cons.2 (Or.inr (ih h))

/-- Updating the channel under `d` does not change lookups at other keys. -/
theorem lookup_updateRoute_ne {routes : RouteTable} {d b : Nat} {ch : Channel}
    (h : b ≠ d) : (updateRoute routes d ch).lookup b = routes.lookup b := by
  induction routes with
  | nil => rfl
  | cons p rest ih =>
      obtain ⟨k, v⟩ := p
      by_cases hkd : k = d
      · subst hkd
        have hbk : (b == k) = false := beq_eq_false_iff_ne.2 h
        simp only [updateRoute, List.map_cons] at ih ⊢
        rw [if_pos trivial]
        simp only [List.lookup_cons, hbk]
        exact ih
      · simp only [updateRoute, List.map_cons] at ih ⊢
        rw [if_neg (by simpa using hkd)]
        simp only [List.lookup_cons]
        cases hbk : b == k with
        | true => rfl
        | false => exact ih

/-- A successful `trySend` appends the buffer at the back of the queue. -/
theorem trySend_some {ch ch' : Channel} {b : List Nat}
    (h : trySend ch b = some ch') :
    ch' = { ch with queue := ch.queue ++ [b] } := by
  rw [trySend] at h
  split at h
  · exact absurd h (by simp)
  · exact (Option.some.inj h).symm

/-- Pushing a frame addressed to `d` preserves a channel's goodness. -/
theorem goodChan_push {d : Nat} {ch : Channel} {b : List Nat} {pkt : Ipv4View}
    (h : goodChan d ch = true) (hp : ipv4Parse b = some pkt)
    (hd : pkt.destination = d) :
    goodChan d { ch with queue := ch.queue ++ [b] } = true := by
  simp only [goodChan, List.all_append, Bool.and_eq_true] at *
  exact ⟨h, by simp [hp, hd]⟩

/-- Replacing the channel under `d` by a good one preserves the route-table
invariant. -/
theorem routesOk_update {routes : RouteTable} {d : Nat} {ch' : Channel}
    (h : routesOk routes = true) (hg : goodChan d ch' = true) :
    routesOk (updateRoute routes d ch') = true := by
  rw [routesOk, List.all_eq_true] at h ⊢
  intro p hp
  obtain ⟨q, hq, rfl⟩ := List.mem_map.1 hp
  by_cases hqd : q.1 = d
  · simp [hqd, hg]
  · simpa [hqd] using h q hq

/-- Case analysis of a demux iteration: either the route table is unchanged
(a drop), or the frame parsed, was looked up, and was enqueued into exactly
the channel registered under its parsed destination. -/
theorem demuxStep_snd {routes : RouteTable} {frame : List Nat} :
    (demuxStep routes frame).2 = routes ∨
    ∃ pkt ch ch', ipv4Parse frame = some pkt ∧
      routes.lookup pkt.destination = some ch ∧ trySend ch frame = some ch' ∧
      (demuxStep routes frame).2 =
        updateRoute routes pkt.destination ch' := by
  unfold demuxStep
  split
  · exact Or.inl rfl
  · rename_i pkt hp
    split
    · exact Or.inl rfl
    · rename_i ch hl
      split
      · exact Or.inl rfl
      · rename_i ch' hts
        exact Or.inr ⟨pkt, ch, ch', hp, hl, hts, rfl⟩

/-- One demux iteration preserves the route-table invariant. -/
theorem demuxStep_routesOk {routes : RouteTable} {frame : List Nat}
    (h : routesOk routes = true) :
    routesOk (demuxStep routes frame).2 = true := by
  rcases @demuxStep_snd routes frame with heq |
    ⟨pkt, ch, ch', hp, hl, hts, heq⟩
  · rw [heq]; exact h
  · rw [heq]
    have hgood : goodChan pkt.destination ch = true := by
      rw [routesOk, List.all_eq_true] at h
      exact h (pkt.destination, ch) (lookup_mem hl)
    obtain rfl := trySend_some hts
    exact routesOk_update h (goodChan_push hgood hp rfl)

/-- The demux loop preserves the route-table invariant. -/
theorem demuxRun_routesOk :
    ∀ {frames : List (List Nat)} {routes : RouteTable},
      routesOk routes = true → routesOk (demuxRun routes frames).2 = true := by
  intro frames
  induction frames with
  | nil => intro routes h; exact h
  | cons frame rest ih =>
      intro routes h
      simp only [demuxRun]
      exact ih (demuxStep_routesOk h)

/-! ## Claim theorems -/

/-- C1: for every client-to-kernel `Payload` whose bytes parse as IPv4, the
session pump drops the packet — no TUN write, no error, the loop continues —
whenever its source differs from the session's assigned address or its
destination is loopback, private, unspecified, or broadcast; when the source
equals the assigned address and the destination is outside all these classes,
the packet passes this gate and proceeds to the port-filter stage. -/
theorem egress_gate_filters (cfg : Cfg) (assigned : Nat) (bts : List Nat)
    (pkt : Ipv4View) (hp : ipv4Parse bts = some pkt) :
    ((pkt.source ≠ assigned ∨ isLoopback pkt.destination = true ∨
        isPrivate pkt.destination = true ∨ isUnspecified pkt.destination = true ∨
        isBroadcast pkt.destination = true) →
      vpnStep cfg assigned (.payload bts) = ([], true)) ∧
    ((pkt.source = assigned ∧ isLoopback pkt.destination = false ∧
        isPrivate pkt.destination = false ∧ isUnspecified pkt.destination = false ∧
        isBroadcast pkt.destination = false) →
      handlePayload cfg assigned bts = portFilter cfg pkt bts) := by
  constructor
  · intro h
    have hg : gateDrops assigned pkt = true := by
      simp only [gateDrops, Bool.or_eq_true, bne_iff_ne]
      rcases h with h | h | h | h | h <;> simp [h]
    simp [vpnStep, handlePayload, hp, hg]
  · rintro ⟨h1, h2, h3, h4, h5⟩
    have hg : gateDrops assigned pkt = false := by
      simp [gateDrops, h1, h2, h3, h4, h5]
    simp [handlePayload, hp, hg]

/-- Witness for C1 at the spec's scenario: assigned 100.64.7.7; the packet
with spoofed source 100.64.7.8 is dropped with the loop continuing, and the
packet with the correct source to 8.8.8.8 reaches the port filter. -/
theorem egress_gate_filters_witness :
    (ipv4Parse pktSpoofed = some viewSpoofed ∧ viewSpoofed.source ≠ assignedA ∧
      vpnStep cfgEmpty assignedA (.payload pktSpoofed) = ([], true)) ∧
    (ipv4Parse pktUdp53 = some viewUdp53 ∧ viewUdp53.source = assignedA ∧
      handlePayload cfgEmpty assignedA pktUdp53 = portFilter cfgEmpty viewUdp53 pktUdp53) :=
  ⟨⟨by decide, by decide,
      (egress_gate_filters cfgEmpty assignedA pktSpoofed viewSpoofed
        (by decide)).1 (Or.inl (by decide))⟩,
   ⟨by decide, by decide,
      (egress_gate_filters cfgEmpty assignedA pktUdp53 viewUdp53
        (by decide)).2
        ⟨by decide, by decide, by decide, by decide, by decide⟩⟩⟩

/-- C2: on `ClientHello` the session emits exactly one `ServerHello` carrying
the assigned address and gateway 100.64.0.1, it continues, and in the loop
over the message sequence this reply precedes every effect of later
messages. -/
theorem clienthello_serverhello (cfg : Cfg) (assigned : Nat)
    (rest : List VpnMessage) :
    vpnStep cfg assigned .clientHello =
      ([.sendMsg (.serverHello assigned gatewayAddr)], true) ∧
    vpnLoop cfg assigned (.clientHello :: rest) =
      .sendMsg (.serverHello assigned gatewayAddr) :: vpnLoop cfg assigned rest := by
  exact ⟨rfl, rfl⟩

/-- C4: a packet that passes the source/destination gate and is UDP with
destination port 443 is dropped without a TUN write (QUIC suppression), the
loop continuing; the analogous TCP packet to port 443 is not dropped by this
rule — it is written unless the blacklist or the whitelist rejects port 443. -/
theorem quic_block (cfg : Cfg) (assigned : Nat) (bts : List Nat)
    (pkt : Ipv4View) (hp : ipv4Parse bts = some pkt)
    (hg : gateDrops assigned pkt = false) :
    (pkt.protocol = protoUdp → destPort pkt = some 443 →
      vpnStep cfg assigned (.payload bts) = ([], true)) ∧
    (pkt.protocol = protoTcp → destPort pkt = some 443 →
      handlePayload cfg assigned bts =
        (if 443 ∈ cfg.blackPorts then none
         else if cfg.portWhitelist ∧ 443 ∉ cfg.whitePorts then none
         else some bts)) := by
  constructor
  · intro hu hd
    simp [vpnStep, handlePayload, hp, hg, portFilter, hd, hu]
  · intro ht hd
    simp [handlePayload, hp, hg, portFilter, hd, ht, protoTcp, protoUdp]

/-- Witness for C4: the UDP packet to 8.8.8.8:443 is dropped; the TCP packet
to 8.8.8.8:443 is written to the TUN under empty policy tables. -/
theorem quic_block_witness :
    (ipv4Parse pktUdp443 = some viewUdp443 ∧
      gateDrops assignedA viewUdp443 = false ∧
      vpnStep cfgEmpty assignedA (.payload pktUdp443) = ([], true)) ∧
    (ipv4Parse pktTcp443 = some viewTcp443 ∧
      gateDrops assignedA viewTcp443 = false ∧
      handlePayload cfgEmpty assignedA pktTcp443 = some pktTcp443) :=
  ⟨⟨by decide, by decide,
      (quic_block cfgEmpty assignedA pktUdp443 viewUdp443 (by decide)
        (by decide)).1 (by decide) (by decide)⟩,
   ⟨by decide, by decide,
      ((quic_block cfgEmpty assignedA pktTcp443 viewTcp443 (by decide)
        (by decide)).2 (by decide) (by decide)).trans (by decide)⟩⟩

/-- C7: the ingress channel created at session startup has capacity 65536
when the rate limiter is unlimited and `limit / 4` otherwise. -/
theorem ingress_capacity_rule :
    ingressCapacity .unlimited = 65536 ∧
    ∀ L : Nat, ingressCapacity (.limited L) = L / 4 :=
  ⟨rfl, fun _ => rfl⟩

/-- C3: successive `assign()` calls with no intervening releases return
pairwise-distinct addresses, and the pool's set always holds exactly the
addresses referenced by live leases: after the calls the set is the initial
set plus the assigned addresses, and any successful run of assigns and
releases preserves table-equals-live-leases. -/
theorem assign_distinct_and_lease_invariant :
    (∀ (first last : Nat) (css : List (List Nat)) (t : Finset Nat)
        (as_ : List Nat) (t' : Finset Nat),
        assignN first last css t = some (as_, t') →
        as_.Nodup ∧ (∀ x, x ∈ t' ↔ x ∈ as_ ∨ x ∈ t)) ∧
    (∀ (first last : Nat) (ops : List PoolOp) (s s' : PoolState),
        poolRun first last s ops = some s' → s.table = s.leases →
        s'.table = s'.leases) := by
  constructor
  · intro first last css t as_ t' h
    obtain ⟨hnd, _, hmem⟩ := assignN_spec h
    exact ⟨hnd, hmem⟩
  · intro first last ops s s' h hinv
    exact poolRun_inv h hinv

/-- Witness for C3: two assigns from the empty pool give the distinct
addresses 116 and 117, and an assign-then-release run restores the
empty-table-equals-empty-leases state. -/
theorem assign_distinct_and_lease_invariant_witness :
    (assignN 100 200 [[0], [0, 1]] ∅ = some ([116, 117], {117, 116}) ∧
      [116, 117].Nodup ∧
      (∀ x, x ∈ ({117, 116} : Finset Nat) ↔
        x ∈ [116, 117] ∨ x ∈ (∅ : Finset Nat))) ∧
    (poolRun 100 200 ⟨∅, ∅⟩ [.assign [0], .release 116] = some ⟨∅, ∅⟩ ∧
      (PoolState.mk ∅ ∅).table = (PoolState.mk ∅ ∅).leases) :=
  ⟨⟨by decide,
    (assign_distinct_and_lease_invariant.1 100 200 [[0], [0, 1]] ∅
      [116, 117] {117, 116} (by decide)).1,
    (assign_distinct_and_lease_invariant.1 100 200 [[0], [0, 1]] ∅
      [116, 117] {117, 116} (by decide)).2⟩,
   ⟨by decide,
    assign_distinct_and_lease_invariant.2 100 200 [.assign [0], .release 116]
      ⟨∅, ∅⟩ ⟨∅, ∅⟩ (by decide) (by decide)⟩⟩

/-- C5: dropping the last handle of an assigned address removes it from the
pool's set exactly once, after which the address is absent and a subsequent
`assign` drawing it succeeds; a release finding the address absent is the
double-free panic (`none`) rather than a no-op. -/
theorem lease_release_exact :
    (∀ (t : Finset Nat) (a : Nat), a ∈ t →
        releaseAddr t a = some (t.erase a) ∧ a ∉ t.erase a) ∧
    (∀ (first last s : Nat) (t : Finset Nat) (a : Nat),
        genRange (first + 16) (last - 16) s = a →
        assign first last [s] (t.erase a) = some (a, insert a (t.erase a))) ∧
    (∀ (t : Finset Nat) (a : Nat), a ∉ t → releaseAddr t a = none) := by
  refine ⟨fun t a ha => ⟨by simp [releaseAddr, ha], Finset.not_mem_erase a t⟩,
    ?_, fun t a ha => by simp [releaseAddr, ha]⟩
  intro first last s t a hg
  simp [assign, hg, Finset.not_mem_erase]

/-- Witness for C5: releasing 21 from the pool {21, 7} erases it once, a
fresh draw of 21 is then assigned again, and a second release of 21 is the
double-free panic. -/
theorem lease_release_exact_witness :
    ((21 : Nat) ∈ ({21, 7} : Finset Nat) ∧
      releaseAddr {21, 7} 21 = some (({21, 7} : Finset Nat).erase 21) ∧
      21 ∉ (({21, 7} : Finset Nat).erase 21)) ∧
    (genRange (0 + 16) (200 - 16) 5 = 21 ∧
      assign 0 200 [5] (({21, 7} : Finset Nat).erase 21) =
        some (21, insert 21 (({21, 7} : Finset Nat).erase 21))) ∧
    ((21 : Nat) ∉ (({21, 7} : Finset Nat).erase 21) ∧
      releaseAddr (({21, 7} : Finset Nat).erase 21) 21 = none) :=
  ⟨⟨by decide, lease_release_exact.1 {21, 7} 21 (by decide)⟩,
   ⟨by decide, lease_release_exact.2.1 0 200 5 {21, 7} 21 (by decide)⟩,
   ⟨by decide, lease_release_exact.2.2 (({21, 7} : Finset Nat).erase 21) 21
      (by decide)⟩⟩

/-- C8: every address a successful `assign` returns on a pool with CIDR range
`[first, last]` lies in the half-open interval `[first + 16, last - 16)`:
at least `first + 16`, strictly below `last - 16`, hence at most `last - 16`,
so the 16 lowest and 16 highest addresses of the range are never assigned. -/
theorem assign_boundary (first last : Nat) (seeds : List Nat) (t : Finset Nat)
    (a : Nat) (t' : Finset Nat) (hrange : first + 16 < last - 16)
    (h : assign first last seeds t = some (a, t')) :
    first + 16 ≤ a ∧ a < last - 16 ∧ a ≤ last - 16 := by
  obtain ⟨s, _, rfl⟩ := assign_from_seed h
  have hm : s % (last - 16 - (first + 16)) < last - 16 - (first + 16) :=
    Nat.mod_lt _ (by omega)
  unfold genRange
  omega

/-- Witness for C8 on the CGNAT range 100.64.0.0/10 (first 1681915904,
last 1686110207): the first draw assigns 1681915920 = first + 16, inside
the reserved-boundary interval. -/
theorem assign_boundary_witness :
    (1681915904 + 16 < 1686110207 - 16 ∧
      assign 1681915904 1686110207 [0] ∅ = some (1681915920, {1681915920})) ∧
    (1681915904 + 16 ≤ 1681915920 ∧ 1681915920 < 1686110207 - 16 ∧
      1681915920 ≤ 1686110207 - 16) :=
  ⟨⟨by decide, by decide⟩,
   assign_boundary 1681915904 1686110207 [0] ∅ 1681915920 {1681915920}
     (by decide) (by decide)⟩

/-- C6: the TUN reader drops a frame — leaving the route table unchanged and
continuing with the next read — when the frame fails to parse as IPv4, when
its destination has no route entry, or when the owning channel is full or
closed; the send is non-blocking, so the outcome for a frame depends only on
the route entry of its own destination, and a step never touches another
address's channel. -/
theorem demux_nonblocking_isolation :
    (∀ (routes : RouteTable) (frame : List Nat),
        ipv4Parse frame = none →
        demuxStep routes frame = (.droppedParse, routes)) ∧
    (∀ (routes : RouteTable) (frame : List Nat) (pkt : Ipv4View),
        ipv4Parse frame = some pkt → routes.lookup pkt.destination = none →
        demuxStep routes frame = (.droppedNoRoute, routes)) ∧
    (∀ (routes : RouteTable) (frame : List Nat) (pkt : Ipv4View) (ch : Channel),
        ipv4Parse frame = some pkt → routes.lookup pkt.destination = some ch →
        (ch.closed = true ∨ ch.cap ≤ ch.queue.length) →
        demuxStep routes frame = (.droppedChannel, routes)) ∧
    (∀ (r1 r2 : RouteTable) (frame : List Nat) (pkt : Ipv4View),
        ipv4Parse frame = some pkt →
        r1.lookup pkt.destination = r2.lookup pkt.destination →
        (demuxStep r1 frame).1 = (demuxStep r2 frame).1) ∧
    (∀ (routes : RouteTable) (frame : List Nat) (b : Nat),
        (∀ pkt, ipv4Parse frame = some pkt → b ≠ pkt.destination) →
        (demuxStep routes frame).2.lookup b = routes.lookup b) ∧
    (∀ (routes : RouteTable) (frame : List Nat) (rest : List (List Nat)),
        demuxRun routes (frame :: rest) =
          ((demuxStep routes frame).1 ::
             (demuxRun (demuxStep routes frame).2 rest).1,
           (demuxRun (demuxStep routes frame).2 rest).2)) := by
  refine ⟨?_, ?_, ?_, ?_, ?_, ?_⟩
  · intro routes frame h
    simp [demuxStep, h]
  · intro routes frame pkt hp hl
    simp [demuxStep, hp, hl]
  · intro routes frame pkt ch hp hl hfull
    have hts : trySend ch frame = none := by
      rw [trySend]
      exact if_pos hfull
    simp [demuxStep, hp, hl, hts]
  · intro r1 r2 frame pkt hp hl
    unfold demuxStep
    rw [hp]
    dsimp only
    rw [hl]
    cases h2 : r2.lookup pkt.destination with
    | none => rfl
    | some ch =>
        dsimp only
        cases h3 : trySend ch frame with
        | none => rfl
        | some ch' => rfl
  · intro routes frame b hb
    rcases @demuxStep_snd routes frame with heq |
      ⟨pkt, ch, ch', hp, hl, hts, heq⟩
    · rw [heq]
    · rw [heq]
      exact lookup_updateRoute_ne (hb pkt hp)
  · intro routes frame rest
    rfl

/-- Witness for C6: with the demo route tables, an unparseable frame, a frame
with no route, and a frame to the full channel at 999 are each dropped with
the table intact; the frame to 100.64.7.7 has the same outcome whether or not
the independent session 999 is present; and delivering it leaves the route
entry of 999 untouched. -/
theorem demux_nonblocking_isolation_witness :
    (ipv4Parse [] = none ∧ demuxStep demoRoutes [] = (.droppedParse, demoRoutes)) ∧
    (demuxStep demoRoutes pktUdp53 = (.droppedNoRoute, demoRoutes)) ∧
    (demuxStep demoRoutes frame999 = (.droppedChannel, demoRoutes)) ∧
    ((demuxStep demoRoutes retFrame).1 = (demuxStep smallRoutes retFrame).1) ∧
    ((demuxStep demoRoutes retFrame).2.lookup 999 = demoRoutes.lookup 999) :=
  ⟨⟨by decide, demux_nonblocking_isolation.1 demoRoutes [] (by decide)⟩,
   demux_nonblocking_isolation.2.1 demoRoutes pktUdp53 viewUdp53
     (by decide) (by decide),
   demux_nonblocking_isolation.2.2.1 demoRoutes frame999 viewFrame999
     ⟨0, [], false⟩ (by decide) (by decide) (Or.inr (by decide)),
   demux_nonblocking_isolation.2.2.2.1 demoRoutes smallRoutes retFrame viewRet
     (by decide) (by decide),
   demux_nonblocking_isolation.2.2.2.2.1 demoRoutes retFrame 999
     (fun pkt hp => by
        rw [show ipv4Parse retFrame = some viewRet from by decide] at hp
        injection hp with h
        subst h
        decide)⟩

/-- C9: if every registered channel only holds frames addressed to its key —
which the demux step preserves, since it enqueues a frame only into the
channel looked up under the frame's parsed destination — then every buffer
a session's egress task receives from the channel registered at its address
parses as IPv4 with that destination, so the parse expect and the destination
assertion of the down task never fail. -/
theorem down_task_asserts_hold :
    (∀ (routes : RouteTable) (frames : List (List Nat)),
        routesOk routes = true → routesOk (demuxRun routes frames).2 = true) ∧
    (∀ (routes : RouteTable) (a : Nat) (ch : Channel) (b : List Nat),
        routesOk routes = true → routes.lookup a = some ch → b ∈ ch.queue →
        downStep a b = some (.sendMsg (.payload b))) := by
  constructor
  · intro routes frames h
    exact demuxRun_routesOk h
  · intro routes a ch b h hl hb
    have hg : goodChan a ch = true := by
      rw [routesOk, List.all_eq_true] at h
      exact h (a, ch) (lookup_mem hl)
    rw [goodChan, List.all_eq_true] at hg
    have hgb := hg b hb
    cases hp : ipv4Parse b with
    | none => rw [hp] at hgb; simp at hgb
    | some pkt =>
        rw [hp] at hgb
        simp only at hgb
        simp [downStep, hp, eq_of_beq hgb]

/-- Witness for C9: the demo route table satisfies the invariant, running the
demux over the return frame preserves it, and the queued return frame passes
the down task's parse and destination assertion at 100.64.7.7. -/
theorem down_task_asserts_hold_witness :
    (routesOk demoRoutes = true ∧
      routesOk (demuxRun demoRoutes [retFrame]).2 = true) ∧
    downStep assignedA retFrame = some (.sendMsg (.payload retFrame)) :=
  ⟨⟨by decide, down_task_asserts_hold.1 demoRoutes [retFrame] (by decide)⟩,
   down_task_asserts_hold.2 demoRoutes assignedA ⟨4, [retFrame], false⟩
     retFrame (by decide) (by decide) (by decide)⟩

/-- C10 counterexample: in the startup sequence of `handle_vpn_session` the
lease is forced by `assigned_ip.addr()` (line 107) strictly before the
ingress channel capacity is computed (lines 121-125), so the claim that the
lease is first forced only after the capacity computation is false. -/
theorem startup_force_before_capacity :
    ¬ (sessionStartup.indexOf .computeCapacity <
        sessionStartup.indexOf .forceLease) := by decide

/-- C10 amended: the `assigned_ip` handle is created lazily but is forced
immediately afterwards, when the address is captured — before the ingress
channel capacity is computed; the address is allocated and inserted into the
route table before any client message is received. -/
theorem startup_lease_order :
    sessionStartup.indexOf .createLazyLease <
      sessionStartup.indexOf .forceLease ∧
    sessionStartup.indexOf .forceLease <
      sessionStartup.indexOf .computeCapacity ∧
    sessionStartup.indexOf .computeCapacity <
      sessionStartup.indexOf .routeInsert ∧
    sessionStartup.indexOf .routeInsert <
      sessionStartup.indexOf .firstRecv := by decide

end Geph4Exit
